import Mathlib

/-!
Verification of the cache/persistence subsystem of `utils/cache.py`
(pokemon-web-app).  The Python module is shallowly embedded: the module-level
dictionaries (`pokemon_cache`, `extra_cache`) become explicit state threaded
through each operation, JSON documents become an inductive `Json` type with
Python truthiness, Python `dict`s become association lists with first-match
lookup, and the filesystem visible to the module (the live store file and its
timestamped backup files) becomes an explicit record.  Network fetches and
disk-write outcomes are supplied as explicit parameters, so every definition
is executable.
-/

set_option maxHeartbeats 1000000

namespace PokeCache

/-- JSON values, as handled by Python's `json` module: objects keep their
field order (Python dicts are ordered). -/
inductive Json where
  | null
  | bool (b : Bool)
  | num (n : Int)
  | str (s : String)
  | arr (elems : List Json)
  | obj (fields : List (String × Json))

/-- Python truthiness of a JSON value (`if data:`): `None`, `False`, `0`,
`""`, `[]` and `{}` are falsy, everything else truthy. -/
def Json.pyTruthy : Json → Bool
  | .null => false
  | .bool b => b
  | .num n => n != 0
  | .str s => s != ""
  | .arr xs => !xs.isEmpty
  | .obj fs => !fs.isEmpty

/-- Truthiness of an optional JSON value (Python `None` is falsy). -/
def pyTruthyOpt : Option Json → Bool
  | none => false
  | some j => j.pyTruthy

/-- `str.lower()` on the ASCII names this system uses, written over the
character list so that it evaluates by kernel reduction. -/
def pyLower (s : String) : String := ⟨s.data.map Char.toLower⟩

/-- Python-dict lookup on an association list (keys are unique in a real
dict, so first match is the match). -/
def dlookup {α : Type} (k : String) : List (String × α) → Option α
  | [] => none
  | (k', v) :: rest => if k' = k then some v else dlookup k rest

/-- Python-dict assignment `d[k] = v`: replace the value of an existing key
in place, otherwise append the new binding at the end. -/
def dinsert {α : Type} (k : String) (v : α) : List (String × α) → List (String × α)
  | [] => [(k, v)]
  | (k', v') :: rest => if k' = k then (k, v) :: rest else (k', v') :: dinsert k v rest

/-- Python `del d[k]` (keys are unique, so removing the first match models it). -/
def derase {α : Type} (k : String) : List (String × α) → List (String × α)
  | [] => []
  | (k', v') :: rest => if k' = k then rest else (k', v') :: derase k rest

/-- `d.setdefault(k, v)`: insert `k ↦ v` only when `k` is absent. -/
def dsetdefault {α : Type} (k : String) (v : α) (d : List (String × α)) :
    List (String × α) :=
  if (dlookup k d).isSome then d else d ++ [(k, v)]

/-- Sections of a store: a Python dict from string keys to JSON blobs. -/
abbrev Dict := List (String × Json)

-- ---------------------------------------------------------------------- --
-- `get_pokemon_cached` / `get_species_cached` (utils/cache.py)
-- ---------------------------------------------------------------------- --

/-- Result of one `get_pokemon_cached` call: the returned value (`none` is
Python `None`), the updated section, how many times the fetch function was
invoked, and how many `save_cache` persists were triggered. -/
structure GetResult where
  value : Option Json
  cache : Dict
  fetchCalls : Nat
  persists : Nat

/-- `get_pokemon_cached(name, get_pokemon_fn)`: lowercase the key; on hit
return the cached entry; on miss invoke the fetch function and store + persist
only a truthy result (`if data:`), returning the fetched value either way. -/
def get_pokemon_cached (cache : Dict) (name : String)
    (fetchFn : String → Option Json) : GetResult :=
  let key := pyLower name
  match dlookup key cache with
  | some v => ⟨some v, cache, 0, 0⟩
  | none =>
    match fetchFn key with
    | some d =>
      if d.pyTruthy then ⟨some d, dinsert key d cache, 1, 1⟩
      else ⟨some d, cache, 1, 0⟩
    | none => ⟨none, cache, 1, 0⟩

/-- Result of one `get_species_cached` call (the fetch, `pokeapi.get_species`,
returns `{}` rather than `None` on failure, hence a total `Json` result). -/
structure SpeciesResult where
  value : Json
  species : Dict
  fetchCalls : Nat
  persists : Nat

/-- `get_species_cached(name, autosave)`: same hit/miss pattern on the
`"species"` section; a truthy fetched value is stored, and persisted only when
`autosave` is set. -/
def get_species_cached (species : Dict) (name : String)
    (fetchFn : String → Json) (autosave : Bool) : SpeciesResult :=
  let key := pyLower name
  match dlookup key species with
  | some v => ⟨v, species, 0, 0⟩
  | none =>
    let d := fetchFn key
    if d.pyTruthy then
      ⟨d, dinsert key d species, 1, if autosave then 1 else 0⟩
    else ⟨d, species, 1, 0⟩

-- ---------------------------------------------------------------------- --
-- `_json_fetch` and the retry policy (cache.py lines 40-49)
-- ---------------------------------------------------------------------- --

/-- One HTTP attempt's outcome, supplied by the environment: a response with
a status code and a body that may or may not parse as JSON, or a
connection-level failure (including a per-attempt timeout). -/
inductive HttpOutcome where
  | response (code : Nat) (body : Option Json)
  | connFailure

/-- The transient statuses configured in
`Retry(status_forcelist=(429, 500, 502, 503, 504))` (cache.py line 41). -/
def transientStatus (code : Nat) : Bool :=
  code == 429 || code == 500 || code == 502 || code == 503 || code == 504

/-- An outcome the configured retry machinery treats as transient. -/
def transientOutcome : HttpOutcome → Bool
  | .connFailure => true
  | .response c _ => transientStatus c

/-- How a `_json_fetch` call fails: retries exhausted (urllib3
`MaxRetryError`, a network error), a non-transient HTTP error status
(`raise_for_status`), or a 2xx body that is not valid JSON (`r.json()`). -/
inductive FetchErr where
  | maxRetries
  | httpError (code : Nat)
  | jsonError

/-- Model of the retry loop that `requests` + urllib3 run for `_json_fetch`
(cache.py lines 40-49): `remaining` is the urllib3 `Retry.total` budget, which
counts *retries*, not requests — a request is always issued first, and on a
transient status or a connection failure the budget is decremented, the call
failing with `MaxRetryError` once the budget is spent.  A non-transient status
is handed back to `requests`, where `raise_for_status` raises for 4xx/5xx, and
a non-error body that fails to parse raises from `r.json()`; neither of those
is retried.  The second component counts HTTP attempts actually issued. -/
def retryRequest (responder : Nat → HttpOutcome) :
    Nat → Nat → Except FetchErr Json × Nat
  | remaining, idx =>
    match responder idx with
    | .connFailure =>
      match remaining with
      | 0 => (.error .maxRetries, 1)
      | r + 1 =>
        let rec' := retryRequest responder r (idx + 1)
        (rec'.1, rec'.2 + 1)
    | .response code body =>
      if transientStatus code then
        match remaining with
        | 0 => (.error .maxRetries, 1)
        | r + 1 =>
          let rec' := retryRequest responder r (idx + 1)
          (rec'.1, rec'.2 + 1)
      else if 400 ≤ code then (.error (.httpError code), 1)
      else
        match body with
        | some j => (.ok j, 1)
        | none => (.error .jsonError, 1)

/-- `_json_fetch(url)` under a given environment `responder` mapping each
attempt index to its outcome: the session is configured with
`Retry(total=3, ...)`. -/
def json_fetch (responder : Nat → HttpOutcome) : Except FetchErr Json × Nat :=
  retryRequest responder 3 0

-- ---------------------------------------------------------------------- --
-- Default-variety resolution (cache.py lines 325-366)
-- ---------------------------------------------------------------------- --

/-- One step of the `for v in sp.get("varieties", [])` scan in the
default-variety resolvers: a variant `v` either matches (`v.get("is_default")`
truthy and `v.get("pokemon", {}).get("name")` truthy, whereupon
`name = v["pokemon"]["name"]` and the loop breaks), is skipped, or raises
(`v`, or its `"pokemon"` field, is not a dict, so `.get` raises
`AttributeError`, caught by the surrounding `except` with `name` still the
key). -/
inductive ScanStep where
  | found (nm : Json)
  | skip
  | abort

/-- Classify one variant entry as the scan loop does. -/
def scanStep : Json → ScanStep
  | .obj fields =>
    let isDef := (dlookup "is_default" fields).getD .null
    if isDef.pyTruthy then
      match (dlookup "pokemon" fields).getD (.obj []) with
      | .obj pf =>
        let nm := (dlookup "name" pf).getD .null
        if nm.pyTruthy then .found nm else .skip
      | _ => .abort
    else .skip
  | _ => .abort

/-- Run the scan over the variant list: `some nm` if a default-marked variant
with a truthy pokemon name is reached first, `none` if the loop completes or
raises (both leave `name` as the key). -/
def scanVarieties : List Json → Option Json
  | [] => none
  | v :: rest =>
    match scanStep v with
    | .found nm => some nm
    | .skip => scanVarieties rest
    | .abort => none

/-- The `name` the resolvers compute for a key from a species document:
start from the key; take the first default-marked variant's pokemon name when
the scan finds one; any shape mismatch is swallowed by the `except` (a
non-dict document, a non-list `"varieties"` value, or a raising scan) and
leaves the key. -/
def defaultVarietyName (key : String) (sp : Json) : Json :=
  match sp with
  | .obj fields =>
    match (dlookup "varieties" fields).getD (.arr []) with
    | .arr vs => (scanVarieties vs).getD (.str key)
    | _ => .str key
  | _ => .str key

/-- The species document the resolvers actually scan:
`get_species_cached(key, autosave=False) or {}`. -/
def speciesEff (species : Dict) (fetchFn : String → Json) (key : String) : Json :=
  let v := (get_species_cached species key fetchFn false).value
  if v.pyTruthy then v else .obj []

/-- Whether the scan of a species document finds a default-marked variant. -/
def hasDefaultVariant (sp : Json) : Bool :=
  match sp with
  | .obj fields =>
    match (dlookup "varieties" fields).getD (.arr []) with
    | .arr vs => (scanVarieties vs).isSome
    | _ => false
  | _ => false

/-- Result of one `get_default_variety_cached` call. -/
structure VarietyResult where
  value : Json
  sdefault : Dict
  species : Dict
  speciesFetchCalls : Nat

/-- `get_default_variety_cached(species_name)` (cache.py lines 325-341):
look up the lowercased key in the `"species_default"` section; on miss, fetch
the species without autosave, derive the default-variety name (falling back to
the key), store it under the key — even when resolution failed — and return
it.  This function itself never writes to disk. -/
def get_default_variety_cached (sdefault species : Dict) (name : String)
    (fetchFn : String → Json) : VarietyResult :=
  let key := pyLower name
  match dlookup key sdefault with
  | some v => ⟨v, sdefault, species, 0⟩
  | none =>
    let r := get_species_cached species key fetchFn false
    let nm := defaultVarietyName key (speciesEff species fetchFn key)
    ⟨nm, dinsert key nm sdefault, r.species, r.fetchCalls⟩

/-- Loop state of `bulk_prime_default_varieties`. -/
structure BulkState where
  sdefault : Dict
  species : Dict
  out : List Json
  added : Nat
  speciesPersists : Nat

/-- One iteration of the `for s in species_names` loop in
`bulk_prime_default_varieties`: hits copy the staged value; misses derive the
name exactly as `get_default_variety_cached` does and stage it. -/
def bulkStep (fetchFn : String → Json) (st : BulkState) (s : String) : BulkState :=
  let key := pyLower s
  match dlookup key st.sdefault with
  | some v => { st with out := st.out ++ [v] }
  | none =>
    let r := get_species_cached st.species key fetchFn false
    let nm := defaultVarietyName key (speciesEff st.species fetchFn key)
    { sdefault := dinsert key nm st.sdefault
      species := r.species
      out := st.out ++ [nm]
      added := st.added + 1
      speciesPersists := st.speciesPersists + r.persists }

/-- Result of `bulk_prime_default_varieties`: the output list, the two updated
sections, and the total number of persist operations performed (species-level
persists — always zero, autosave is off — plus the single final
`save_extra_cache` when anything was added). -/
structure BulkResult where
  out : List Json
  sdefault : Dict
  species : Dict
  persists : Nat

/-- `bulk_prime_default_varieties(species_names)` (cache.py lines 343-366). -/
def bulk_prime_default_varieties (sdefault species : Dict)
    (fetchFn : String → Json) (names : List String) : BulkResult :=
  let st := names.foldl (bulkStep fetchFn) ⟨sdefault, species, [], 0, 0⟩
  ⟨st.out, st.sdefault, st.species,
    st.speciesPersists + (if st.added > 0 then 1 else 0)⟩

/-- The per-name derived default the spec describes, relative to a fixed
store state: the cached value on hit, otherwise the name derived from the
(possibly cached) species document with the key as fallback. -/
def specDerived (sdefault species : Dict) (fetchFn : String → Json)
    (s : String) : Json :=
  let key := pyLower s
  match dlookup key sdefault with
  | some v => v
  | none => defaultVarietyName key (speciesEff species fetchFn key)

-- ---------------------------------------------------------------------- --
-- Disk model: save / backup / refresh / recover (cache.py lines 368-469)
-- ---------------------------------------------------------------------- --

/-- Content of the primary store's file as seen through `json.load`: either
it parses to the store object or it does not. -/
abbrev PContent := Option Dict

/-- The part of the data directory relevant to the primary store: the live
`pokemon_cache.json` (`none` when removed) and the
`pokemon_cache_backup_*.json` snapshots, keyed by file name. -/
structure PFS where
  live : Option PContent
  backups : List (String × PContent)

/-- A section of the secondary store. -/
abbrev Sect := List (String × Json)

/-- The secondary store: a dict of named sections. -/
abbrev EStore := List (String × Sect)

/-- Content of the secondary store's file: parsed or unparseable. -/
abbrev EContent := Option EStore

/-- The live `extra_cache.json` and its `extra_cache_backup_*.json`
snapshots. -/
structure EFS where
  live : Option EContent
  backups : List (String × EContent)

/-- `REQUIRED_EXTRA_KEYS` (cache.py line 26). -/
def REQUIRED_EXTRA_KEYS : List String :=
  ["species", "evolution", "type", "generation", "species_default"]

/-- `LISTS_KEY` (cache.py line 29). -/
def LISTS_KEY : String := "lists"

/-- The `setdefault` normalization applied to the secondary store after load
and after recover: fill in each missing required section, then the lists
bucket, as empty. -/
def normalizeSections (e : EStore) : EStore :=
  dsetdefault LISTS_KEY []
    (REQUIRED_EXTRA_KEYS.foldl (fun acc k => dsetdefault k [] acc) e)

/-- Module-load of the secondary store (cache.py lines 92-111): parse the
file if present, fall back to `{}` on absence or on a parse failure (after
quarantining the corrupt file), then normalize the required sections. -/
def load_extra_cache (fc : Option EContent) : EStore :=
  match fc with
  | some (some d) => normalizeSections d
  | _ => normalizeSections []

/-- The empty required shape `{k: {} for k in REQUIRED_EXTRA_KEYS}` plus the
lists bucket, as built by `refresh_extra_cache`. -/
def emptyExtra : EStore :=
  REQUIRED_EXTRA_KEYS.map (fun k => (k, [])) ++ [(LISTS_KEY, [])]

/-- `refresh_cache()` (cache.py lines 386-395): clear the in-memory dict and
remove the backing file; nothing recreates the file here. -/
def refresh_cache (fs : PFS) : PFS × Dict :=
  ({ fs with live := none }, [])

/-- `refresh_extra_cache()` (cache.py lines 435-446): reset memory to the
empty required shape, remove the backing file, then `save_extra_cache()` —
which immediately rewrites the file with the empty shape.  The disk write is
modelled as succeeding. -/
def refresh_extra_cache (fs : EFS) : EFS × EStore :=
  ({ fs with live := some (some emptyExtra) }, emptyExtra)

/-- Insert into a descending-sorted list of names. -/
def insertDesc (x : String) : List String → List String
  | [] => [x]
  | y :: ys => if y ≤ x then x :: y :: ys else y :: insertDesc x ys

/-- `sorted(names, reverse=True)`: descending lexicographic order (the
timestamped snapshot names are fixed-width, so this is newest first). -/
def sortedDesc (l : List String) : List String := l.foldr insertDesc []

/-- `recover_cache()` (cache.py lines 406-424): list the primary store's
snapshots, sort by name descending, take the first; copy it verbatim over the
live file (`shutil.copyfile`); parse the live file; on success replace the
in-memory store with the parsed content and re-persist (`save_cache`, which
rewrites the live file with that same parsed content); on a parse failure
return `False` with the in-memory store untouched — but note the live file
has already been overwritten by the copy.  With no snapshots return `False`
having touched nothing.  Disk copy and re-save are modelled as succeeding. -/
def recover_cache (fs : PFS) (mem : Dict) : Bool × PFS × Dict :=
  match (sortedDesc (fs.backups.map Prod.fst)).head? with
  | none => (false, fs, mem)
  | some src =>
    match (dlookup src fs.backups).getD none with
    | none => (false, { fs with live := some none }, mem)
    | some recovered => (true, { fs with live := some (some recovered) }, recovered)

/-- `recover_extra_cache()` (cache.py lines 448-469): same protocol as
`recover_cache`, plus the `setdefault` normalization of required sections on
the parsed content before it replaces the in-memory store. -/
def recover_extra_cache (fs : EFS) (mem : EStore) : Bool × EFS × EStore :=
  match (sortedDesc (fs.backups.map Prod.fst)).head? with
  | none => (false, fs, mem)
  | some src =>
    match (dlookup src fs.backups).getD none with
    | none => (false, { fs with live := some none }, mem)
    | some recovered =>
      let r := normalizeSections recovered
      (true, { fs with live := some (some r) }, r)

/-- `_atomic_write(path, obj)` (cache.py lines 51-68) under a given disk
outcome (`some msg` = the OS write raised): on success the target now holds
the serialized object; on failure the temporary file is removed, the target
is untouched, and the error propagates to the caller. -/
def atomic_write (value : Dict) (outcome : Option String) :
    Except String PContent :=
  match outcome with
  | some e => .error e
  | none => .ok (some value)

/-- `save_cache()` (cache.py lines 372-384): run the atomic write; on error,
catch it, log `"ERROR saving cache: ..."`, and leave the on-disk file as it
was; never re-raise to the caller.  Returns the live-file content and the
log lines emitted. -/
def save_cache (live : Option PContent) (mem : Dict) (outcome : Option String) :
    Option PContent × List String :=
  match atomic_write mem outcome with
  | .ok c => (some c, ["Cache saved to disk"])
  | .error e => (live, ["ERROR saving cache: " ++ e])

/-- The store-then-persist segment of `get_pokemon_cached`'s miss path:
`pokemon_cache[name] = data; save_cache()`. -/
def store_then_save (cache : Dict) (live : Option PContent) (key : String)
    (v : Json) (outcome : Option String) :
    Dict × Option PContent × List String :=
  let cache' := dinsert key v cache
  let s := save_cache live cache' outcome
  (cache', s.1, s.2)

-- ---------------------------------------------------------------------- --
-- Store-level operations on the secondary store (for the section invariant)
-- ---------------------------------------------------------------------- --

/-- `extra_cache[k]`: under the always-present invariant the required
sections can be indexed directly; `getD []` also models the `setdefault`
used for `species_default` and `lists`. -/
def sectOf (e : EStore) (k : String) : Sect := (dlookup k e).getD []

/-- The store-level shape of every section getter's mutation:
`extra_cache[sect][key] = value`. -/
def set_section_entry (e : EStore) (sect key : String) (v : Json) : EStore :=
  dinsert sect (dinsert key v (sectOf e sect)) e

/-- `get_species_cached` seen at store level: the `"species"` section is
read and (on a truthy miss) updated in place. -/
def get_species_cached_store (e : EStore) (name : String)
    (fetchFn : String → Json) (autosave : Bool) : Json × EStore :=
  let r := get_species_cached (sectOf e "species") name fetchFn autosave
  (r.value, dinsert "species" r.species e)

/-- `get_default_variety_cached` seen at store level. -/
def get_default_variety_cached_store (e : EStore) (name : String)
    (fetchFn : String → Json) : Json × EStore :=
  let r := get_default_variety_cached (sectOf e "species_default")
    (sectOf e "species") name fetchFn
  (r.value, dinsert "species_default" r.sdefault (dinsert "species" r.species e))

/-- `bulk_prime_default_varieties` seen at store level. -/
def bulk_prime_default_varieties_store (e : EStore) (fetchFn : String → Json)
    (names : List String) : List Json × EStore :=
  let r := bulk_prime_default_varieties (sectOf e "species_default")
    (sectOf e "species") fetchFn names
  (r.out, dinsert "species_default" r.sdefault (dinsert "species" r.species e))

/-- `refresh_lists(keys)` (cache.py lines 211-224): delete the named list
keys (or clear the whole lists bucket) and persist. -/
def refresh_lists (e : EStore) (keys : Option (List String)) : EStore :=
  match keys with
  | some ks => dinsert LISTS_KEY (ks.foldl (fun acc k => derase k acc) (sectOf e LISTS_KEY)) e
  | none => dinsert LISTS_KEY [] e

/-- All required sections and the lists bucket are present in the store. -/
def requiredPresent (e : EStore) : Bool :=
  (REQUIRED_EXTRA_KEYS ++ [LISTS_KEY]).all (fun k => (dlookup k e).isSome)

-- ---------------------------------------------------------------------- --
-- Theorems
-- ---------------------------------------------------------------------- --

theorem dlookup_dinsert_self {α : Type} (k : String) (v : α)
    (d : List (String × α)) : dlookup k (dinsert k v d) = some v := by
  induction d with
  | nil => simp [dinsert, dlookup]
  | cons hd tl ih =>
    obtain ⟨k', v'⟩ := hd
    by_cases h : k' = k <;> simp [dinsert, dlookup, h, ih]

theorem dlookup_dinsert_ne {α : Type} {k k' : String} (v : α)
    (d : List (String × α)) (h : k' ≠ k) :
    dlookup k' (dinsert k v d) = dlookup k' d := by
  have h' : k ≠ k' := Ne.symm h
  induction d with
  | nil => simp [dinsert, dlookup, h']
  | cons hd tl ih =>
    obtain ⟨k₀, v₀⟩ := hd
    by_cases h0 : k₀ = k
    · subst h0
      simp [dinsert, dlookup, h']
    · by_cases h1 : k₀ = k' <;> simp [dinsert, dlookup, h0, h1, h, ih]

theorem dlookup_dinsert_isSome {α : Type} {k k' : String} (v : α)
    (d : List (String × α)) (h : (dlookup k' d).isSome = true) :
    (dlookup k' (dinsert k v d)).isSome = true := by
  by_cases hk : k' = k
  · subst hk; simp [dlookup_dinsert_self]
  · rwa [dlookup_dinsert_ne v d hk]

/-- C3: for both `get_pokemon_cached` and `get_species_cached`, when the
fetch function returns a usable (truthy) value, calling the operation twice in
sequence with the same key invokes the fetch function at most once in total,
and the second call returns the same value as the first without invoking it. -/
theorem getOrFetch_second_call_cached
    (cache : Dict) (k : String) (f : String → Option Json)
    (species : Dict) (g : String → Json)
    (hf : pyTruthyOpt (f (pyLower k)) = true)
    (hg : (g (pyLower k)).pyTruthy = true) :
    (let r1 := get_pokemon_cached cache k f
     let r2 := get_pokemon_cached r1.cache k f
     r1.fetchCalls + r2.fetchCalls ≤ 1 ∧ r2.fetchCalls = 0 ∧ r2.value = r1.value)
    ∧
    (let s1 := get_species_cached species k g true
     let s2 := get_species_cached s1.species k g true
     s1.fetchCalls + s2.fetchCalls ≤ 1 ∧ s2.fetchCalls = 0 ∧ s2.value = s1.value) := by
  constructor
  · cases hc : dlookup (pyLower k) cache with
    | some v => simp [get_pokemon_cached, hc]
    | none =>
      cases hf' : f (pyLower k) with
      | none => rw [hf'] at hf; simp [pyTruthyOpt] at hf
      | some d =>
        rw [hf'] at hf
        simp only [pyTruthyOpt] at hf
        simp [get_pokemon_cached, hc, hf', hf, dlookup_dinsert_self]
  · cases hc : dlookup (pyLower k) species with
    | some v => simp [get_species_cached, hc]
    | none =>
      simp [get_species_cached, hc, hg, dlookup_dinsert_self]

/-- C3 witness: concrete double call with an empty cache and a fetch function
returning a truthy value. -/
theorem getOrFetch_second_call_cached_witness :
    (let r1 := get_pokemon_cached [] "Pikachu" (fun _ => some (.num 5))
     let r2 := get_pokemon_cached r1.cache "Pikachu" (fun _ => some (.num 5))
     r1.fetchCalls + r2.fetchCalls ≤ 1 ∧ r2.fetchCalls = 0 ∧ r2.value = r1.value)
    ∧
    (let s1 := get_species_cached [] "Pikachu" (fun _ => .num 7) true
     let s2 := get_species_cached s1.species "Pikachu" (fun _ => .num 7) true
     s1.fetchCalls + s2.fetchCalls ≤ 1 ∧ s2.fetchCalls = 0 ∧ s2.value = s1.value) :=
  getOrFetch_second_call_cached [] "Pikachu" (fun _ => some (.num 5)) []
    (fun _ => .num 7) rfl rfl

/-- C4: on a miss where the fetch function yields nothing, `get_pokemon_cached`
returns `None`, stores nothing, persists nothing, and a subsequent call with
the same key invokes the fetch function again. -/
theorem negative_results_not_cached
    (cache : Dict) (k : String) (f : String → Option Json)
    (hmiss : dlookup (pyLower k) cache = none)
    (hf : f (pyLower k) = none) :
    (get_pokemon_cached cache k f).value = none
    ∧ (get_pokemon_cached cache k f).cache = cache
    ∧ (get_pokemon_cached cache k f).persists = 0
    ∧ (get_pokemon_cached (get_pokemon_cached cache k f).cache k f).fetchCalls = 1 := by
  simp [get_pokemon_cached, hmiss, hf]

/-- C4 witness: concrete miss with a fetch function yielding nothing. -/
theorem negative_results_not_cached_witness :
    (get_pokemon_cached [] "missingno" (fun _ => none)).value = none
    ∧ (get_pokemon_cached [] "missingno" (fun _ => none)).cache = []
    ∧ (get_pokemon_cached [] "missingno" (fun _ => none)).persists = 0
    ∧ (get_pokemon_cached (get_pokemon_cached [] "missingno" (fun _ => none)).cache
        "missingno" (fun _ => none)).fetchCalls = 1 :=
  negative_results_not_cached [] "missingno" (fun _ => none) rfl rfl

/-- C2 counterexample: a URL that always answers 503 is attempted 4 times,
not 3 — `Retry(total=3)` bounds the number of retries, so the initial request
plus 3 retries are issued before `MaxRetryError`. -/
theorem retry_three_attempts_refuted :
    (json_fetch (fun _ => HttpOutcome.response 503 none)).2 ≠ 3
    ∧ (json_fetch (fun _ => HttpOutcome.response 503 none)).2 = 4 := by
  constructor <;> decide

/-- C2 amended: with every outcome transient, `_json_fetch` issues exactly 4
HTTP attempts (the initial attempt plus the 3 configured retries) and then
fails with a network error; a non-transient first response is never retried
(exactly one attempt is issued). -/
theorem retry_exhaustion_four_attempts (responder : Nat → HttpOutcome) :
    ((∀ i, transientOutcome (responder i) = true) →
        json_fetch responder = (.error .maxRetries, 4))
    ∧ (∀ c b, responder 0 = .response c b → transientStatus c = false →
        (json_fetch responder).2 = 1) := by
  have step : ∀ r idx, transientOutcome (responder idx) = true →
      retryRequest responder (r + 1) idx =
        ((retryRequest responder r (idx + 1)).1,
          (retryRequest responder r (idx + 1)).2 + 1) := by
    intro r idx h
    cases hout : responder idx with
    | connFailure => simp [retryRequest, hout]
    | response c b =>
      rw [hout] at h
      simp only [transientOutcome] at h
      simp [retryRequest, hout, h]
  have base : ∀ idx, transientOutcome (responder idx) = true →
      retryRequest responder 0 idx = (.error .maxRetries, 1) := by
    intro idx h
    cases hout : responder idx with
    | connFailure => simp [retryRequest, hout]
    | response c b =>
      rw [hout] at h
      simp only [transientOutcome] at h
      simp [retryRequest, hout, h]
  constructor
  · intro h
    show retryRequest responder 3 0 = (.error .maxRetries, 4)
    rw [step 2 0 (h 0), step 1 1 (h 1), step 0 2 (h 2), base 3 (h 3)]
  · intro c b h0 hc
    show (retryRequest responder 3 0).2 = 1
    rw [show (3 : Nat) = 2 + 1 from rfl]
    simp only [retryRequest, h0, hc]
    by_cases h4 : 400 ≤ c
    · simp [h4]
    · cases b <;> simp [h4]

/-- C2 amended witness: the always-503 responder issues exactly 4 attempts
and fails with a network error. -/
theorem retry_exhaustion_four_attempts_witness :
    json_fetch (fun _ => HttpOutcome.response 503 none)
      = (Except.error FetchErr.maxRetries, 4) :=
  (retry_exhaustion_four_attempts (fun _ => HttpOutcome.response 503 none)).1
    (fun _ => rfl)

theorem toNat_ofNat_small {m : Nat} (h : m < 55296) : (Char.ofNat m).toNat = m := by
  have hv : m.isValidChar := Or.inl h
  rw [Char.ofNat, dif_pos hv]
  simp [Char.ofNatAux, Char.toNat, UInt32.toNat, BitVec.toNat_ofNatLt]

theorem toLower_toLower (c : Char) : c.toLower.toLower = c.toLower := by
  unfold Char.toLower
  by_cases h : 65 ≤ c.toNat ∧ c.toNat ≤ 90
  · rw [if_pos h]
    have h1 : (Char.ofNat (c.toNat + 32)).toNat = c.toNat + 32 :=
      toNat_ofNat_small (by omega)
    rw [if_neg (by rw [h1]; omega)]
  · rw [if_neg h, if_neg h]

theorem pyLower_idem (s : String) : pyLower (pyLower s) = pyLower s := by
  show String.mk ((s.data.map Char.toLower).map Char.toLower)
      = String.mk (s.data.map Char.toLower)
  rw [List.map_map]
  exact congrArg String.mk
    (List.map_congr_left (fun c _ => toLower_toLower c))

theorem get_species_cached_no_autosave_persists (species : Dict) (name : String)
    (fetchFn : String → Json) :
    (get_species_cached species name fetchFn false).persists = 0 := by
  cases h : dlookup (pyLower name) species with
  | some v => simp [get_species_cached, h]
  | none =>
    simp only [get_species_cached, h]
    split <;> rfl

theorem get_species_cached_lookup (species : Dict) (name : String)
    (fetchFn : String → Json) (auto : Bool) {k : String} (h : k ≠ pyLower name) :
    dlookup k (get_species_cached species name fetchFn auto).species
      = dlookup k species := by
  cases hc : dlookup (pyLower name) species with
  | some v => simp [get_species_cached, hc]
  | none =>
    simp only [get_species_cached, hc]
    split
    · exact dlookup_dinsert_ne _ _ h
    · rfl

theorem get_species_cached_value_congr {sp1 sp2 : Dict} (name : String)
    (fetchFn : String → Json) (auto : Bool)
    (hs : dlookup (pyLower name) sp1 = dlookup (pyLower name) sp2) :
    (get_species_cached sp1 name fetchFn auto).value
      = (get_species_cached sp2 name fetchFn auto).value := by
  simp only [get_species_cached, hs]
  cases h2 : dlookup (pyLower name) sp2 with
  | some v => rfl
  | none =>
    by_cases ht : (fetchFn (pyLower name)).pyTruthy = true <;> simp [ht]

theorem speciesEff_congr {sp1 sp2 : Dict} (fetchFn : String → Json)
    (key : String)
    (hs : dlookup (pyLower key) sp1 = dlookup (pyLower key) sp2) :
    speciesEff sp1 fetchFn key = speciesEff sp2 fetchFn key := by
  unfold speciesEff
  rw [get_species_cached_value_congr key fetchFn false hs]

theorem specDerived_congr {sd1 sp1 sd2 sp2 : Dict} (fetchFn : String → Json)
    (s : String)
    (hd : dlookup (pyLower s) sd1 = dlookup (pyLower s) sd2)
    (hs : dlookup (pyLower s) sp1 = dlookup (pyLower s) sp2) :
    specDerived sd1 sp1 fetchFn s = specDerived sd2 sp2 fetchFn s := by
  have hv : speciesEff sp1 fetchFn (pyLower s) = speciesEff sp2 fetchFn (pyLower s) :=
    speciesEff_congr fetchFn (pyLower s) (by rw [pyLower_idem]; exact hs)
  simp only [specDerived, hd, hv]

theorem bulkStep_out (fetchFn : String → Json) (st : BulkState) (s : String) :
    (bulkStep fetchFn st s).out
      = st.out ++ [specDerived st.sdefault st.species fetchFn s] := by
  cases h : dlookup (pyLower s) st.sdefault with
  | some v => simp [bulkStep, specDerived, h]
  | none => simp [bulkStep, specDerived, h]

theorem bulkStep_added (fetchFn : String → Json) (st : BulkState) (s : String) :
    (bulkStep fetchFn st s).added
      = st.added
        + (if (dlookup (pyLower s) st.sdefault).isNone then 1 else 0) := by
  cases h : dlookup (pyLower s) st.sdefault with
  | some v => simp [bulkStep, h]
  | none => simp [bulkStep, h]

theorem bulkStep_persists (fetchFn : String → Json) (st : BulkState) (s : String) :
    (bulkStep fetchFn st s).speciesPersists = st.speciesPersists := by
  cases h : dlookup (pyLower s) st.sdefault with
  | some v => simp [bulkStep, h]
  | none => simp [bulkStep, h, get_species_cached_no_autosave_persists]

theorem bulkStep_sdefault_lookup (fetchFn : String → Json) (st : BulkState)
    (s : String) {k : String} (h : k ≠ pyLower s) :
    dlookup k (bulkStep fetchFn st s).sdefault = dlookup k st.sdefault := by
  cases hc : dlookup (pyLower s) st.sdefault with
  | some v => simp [bulkStep, hc]
  | none => simp [bulkStep, hc, dlookup_dinsert_ne _ _ h]

theorem bulkStep_species_lookup (fetchFn : String → Json) (st : BulkState)
    (s : String) {k : String} (h : k ≠ pyLower s) :
    dlookup k (bulkStep fetchFn st s).species = dlookup k st.species := by
  cases hc : dlookup (pyLower s) st.sdefault with
  | some v => simp [bulkStep, hc]
  | none =>
    simp only [bulkStep, hc]
    exact get_species_cached_lookup st.species (pyLower s) fetchFn false
      (by rwa [pyLower_idem])

theorem bulk_fold_spec (fetchFn : String → Json) :
    ∀ (names : List String) (st : BulkState),
      (names.map pyLower).Nodup →
      ((names.foldl (bulkStep fetchFn) st).out
          = st.out ++ names.map (specDerived st.sdefault st.species fetchFn))
      ∧ ((names.foldl (bulkStep fetchFn) st).added
          = st.added + (names.filter
              (fun s => (dlookup (pyLower s) st.sdefault).isNone)).length)
      ∧ (names.foldl (bulkStep fetchFn) st).speciesPersists
          = st.speciesPersists := by
  intro names
  induction names with
  | nil => intro st _; simp
  | cons s rest ih =>
    intro st hnd
    have hnd' : (rest.map pyLower).Nodup := (List.nodup_cons.mp hnd).2
    have hne : ∀ t ∈ rest, pyLower t ≠ pyLower s := by
      intro t ht heq
      exact (List.nodup_cons.mp hnd).1 (heq ▸ List.mem_map_of_mem pyLower ht)
    have hmapcong : rest.map (specDerived (bulkStep fetchFn st s).sdefault
          (bulkStep fetchFn st s).species fetchFn)
        = rest.map (specDerived st.sdefault st.species fetchFn) :=
      List.map_congr_left (fun t ht =>
        specDerived_congr fetchFn t
          (bulkStep_sdefault_lookup fetchFn st s (hne t ht))
          (bulkStep_species_lookup fetchFn st s (hne t ht)))
    have hfiltcong : rest.filter
          (fun t => (dlookup (pyLower t) (bulkStep fetchFn st s).sdefault).isNone)
        = rest.filter (fun t => (dlookup (pyLower t) st.sdefault).isNone) :=
      List.filter_congr (fun t ht => by
        rw [bulkStep_sdefault_lookup fetchFn st s (hne t ht)])
    obtain ⟨ih1, ih2, ih3⟩ := ih (bulkStep fetchFn st s) hnd'
    refine ⟨?_, ?_, ?_⟩
    · rw [List.foldl_cons, ih1, hmapcong, bulkStep_out, List.map_cons]
      simp
    · rw [List.foldl_cons, ih2, hfiltcong, bulkStep_added, List.filter_cons]
      by_cases hc : (dlookup (pyLower s) st.sdefault).isNone
      · simp [hc]; omega
      · simp [hc]
    · rw [List.foldl_cons, ih3, bulkStep_persists]

/-- C5: `bulk_prime_default_varieties` returns, in input order, each name's
derived default value — the cached value on hit, otherwise the name derived
from the species document (first default-marked variant) with the input key
itself as fallback — and performs exactly one persist when at least one new
value was resolved and zero persists otherwise (the per-name species fetches
run with autosave off and never persist). -/
theorem bulk_resolve_correct (sdefault species : Dict)
    (fetchFn : String → Json) (names : List String)
    (hnd : (names.map pyLower).Nodup) :
    (bulk_prime_default_varieties sdefault species fetchFn names).out
      = names.map (specDerived sdefault species fetchFn)
    ∧ (bulk_prime_default_varieties sdefault species fetchFn names).persists
      = (if names.all (fun s => (dlookup (pyLower s) sdefault).isSome)
          then 0 else 1) := by
  obtain ⟨h1, h2, h3⟩ :=
    bulk_fold_spec fetchFn names ⟨sdefault, species, [], 0, 0⟩ hnd
  dsimp only at h1 h2 h3
  constructor
  · simp only [bulk_prime_default_varieties]
    rw [h1]
    simp
  · simp only [bulk_prime_default_varieties]
    rw [h3, h2]
    by_cases hall : names.all (fun s => (dlookup (pyLower s) sdefault).isSome)
      = true
    · have hnilf : names.filter
          (fun s => (dlookup (pyLower s) sdefault).isNone) = [] := by
        rw [List.filter_eq_nil_iff]
        intro a ha
        have h4 := List.all_eq_true.mp hall a ha
        intro h5
        rw [Option.isNone_iff_eq_none] at h5
        rw [h5] at h4
        simp at h4
      rw [if_pos hall, hnilf]
      simp
    · have hex : ∃ a ∈ names, ¬ (dlookup (pyLower a) sdefault).isSome = true := by
        by_contra hcon
        push_neg at hcon
        exact hall (List.all_eq_true.mpr (fun a ha => hcon a ha))
      obtain ⟨a, ha, hfa⟩ := hex
      have hlen : 0 < (names.filter
          (fun s => (dlookup (pyLower s) sdefault).isNone)).length := by
        apply List.length_pos.mpr
        intro hnil
        have h0 := List.filter_eq_nil_iff.mp hnil a ha
        rw [Option.not_isSome_iff_eq_none.mp hfa] at h0
        simp at h0
      rw [if_neg hall, Nat.zero_add, Nat.zero_add, if_pos hlen]

/-- C5 witness: the spec's own test vector — `"b"` cached as `"B2"`, `"a"` and
`"c"` resolving via a default-marked variant to `"A2"` and `"C2"` — returns
`["A2","B2","C2"]` with exactly one persist. -/
theorem bulk_resolve_correct_witness :
    (bulk_prime_default_varieties [("b", Json.str "B2")] []
        (fun k => if k = "a"
          then Json.obj [("varieties", Json.arr [Json.obj
            [("is_default", Json.bool true),
             ("pokemon", Json.obj [("name", Json.str "A2")])]])]
          else if k = "c"
          then Json.obj [("varieties", Json.arr [Json.obj
            [("is_default", Json.bool true),
             ("pokemon", Json.obj [("name", Json.str "C2")])]])]
          else Json.obj [])
        ["a", "b", "c"]).out
      = [Json.str "A2", Json.str "B2", Json.str "C2"]
    ∧ (bulk_prime_default_varieties [("b", Json.str "B2")] []
        (fun k => if k = "a"
          then Json.obj [("varieties", Json.arr [Json.obj
            [("is_default", Json.bool true),
             ("pokemon", Json.obj [("name", Json.str "A2")])]])]
          else if k = "c"
          then Json.obj [("varieties", Json.arr [Json.obj
            [("is_default", Json.bool true),
             ("pokemon", Json.obj [("name", Json.str "C2")])]])]
          else Json.obj [])
        ["a", "b", "c"]).persists = 1 := by
  have h := bulk_resolve_correct [("b", Json.str "B2")] []
    (fun k => if k = "a"
      then Json.obj [("varieties", Json.arr [Json.obj
        [("is_default", Json.bool true),
         ("pokemon", Json.obj [("name", Json.str "A2")])]])]
      else if k = "c"
      then Json.obj [("varieties", Json.arr [Json.obj
        [("is_default", Json.bool true),
         ("pokemon", Json.obj [("name", Json.str "C2")])]])]
      else Json.obj [])
    ["a", "b", "c"] (by decide)
  exact ⟨h.1.trans rfl, h.2.trans rfl⟩

theorem hasDefaultVariant_false_name (key : String) (sp : Json)
    (h : hasDefaultVariant sp = false) :
    defaultVarietyName key sp = .str key := by
  cases sp with
  | obj fields =>
    simp only [hasDefaultVariant] at h
    simp only [defaultVarietyName]
    cases hv : (dlookup "varieties" fields).getD (.arr []) with
    | arr vs =>
      simp only [hv] at h
      cases hs : scanVarieties vs with
      | some nm => simp only [hs] at h; simp at h
      | none => simp [hs]
    | null => rfl
    | bool b => rfl
    | num n => rfl
    | str s => rfl
    | obj fs => rfl
  | null => rfl
  | bool b => rfl
  | num n => rfl
  | str s => rfl
  | arr xs => rfl

theorem get_species_cached_value_of_miss {species : Dict} {key : String}
    (fetchFn : String → Json)
    (hk : pyLower key = key) (h : dlookup key species = none) :
    (get_species_cached species key fetchFn false).value = fetchFn key := by
  simp only [get_species_cached, hk, h]
  split <;> rfl

/-- C10: when resolution fails — the species fetch yields nothing while the
species is uncached, or the obtained document has no default-marked variant —
`get_default_variety_cached` stores the lowercased input key itself under that
key; a subsequent resolution of the key returns the cached identity value
without invoking the species fetch, and the batch path performs its one
persist for it. -/
theorem failed_default_resolution_cached
    (sdefault species : Dict) (name : String) (fetchFn : String → Json)
    (hmiss : dlookup (pyLower name) sdefault = none)
    (hfail : ((fetchFn (pyLower name)).pyTruthy = false
                ∧ dlookup (pyLower name) species = none)
             ∨ hasDefaultVariant (speciesEff species fetchFn (pyLower name))
                 = false) :
    (get_default_variety_cached sdefault species name fetchFn).value
        = .str (pyLower name)
    ∧ dlookup (pyLower name)
        (get_default_variety_cached sdefault species name fetchFn).sdefault
        = some (.str (pyLower name))
    ∧ (get_default_variety_cached
          (get_default_variety_cached sdefault species name fetchFn).sdefault
          (get_default_variety_cached sdefault species name fetchFn).species
          name fetchFn).value = .str (pyLower name)
    ∧ (get_default_variety_cached
          (get_default_variety_cached sdefault species name fetchFn).sdefault
          (get_default_variety_cached sdefault species name fetchFn).species
          name fetchFn).speciesFetchCalls = 0
    ∧ (bulk_prime_default_varieties sdefault species fetchFn [name]).persists
        = 1 := by
  have hDV : hasDefaultVariant (speciesEff species fetchFn (pyLower name))
      = false := by
    rcases hfail with ⟨hft, hsp⟩ | hright
    · have hval : (get_species_cached species (pyLower name) fetchFn false).value
          = fetchFn (pyLower name) :=
        get_species_cached_value_of_miss fetchFn (pyLower_idem name) hsp
      have heff : speciesEff species fetchFn (pyLower name) = .obj [] := by
        simp [speciesEff, hval, hft]
      rw [heff]
      rfl
    · exact hright
  have hname : defaultVarietyName (pyLower name)
      (speciesEff species fetchFn (pyLower name)) = .str (pyLower name) :=
    hasDefaultVariant_false_name _ _ hDV
  have hcall1 : (get_default_variety_cached sdefault species name fetchFn).value
      = .str (pyLower name) := by
    simp only [get_default_variety_cached, hmiss, hname]
  have hcall1s : (get_default_variety_cached sdefault species name fetchFn).sdefault
      = dinsert (pyLower name) (.str (pyLower name)) sdefault := by
    simp only [get_default_variety_cached, hmiss, hname]
  have hhit : dlookup (pyLower name)
      (get_default_variety_cached sdefault species name fetchFn).sdefault
      = some (.str (pyLower name)) := by
    rw [hcall1s]
    exact dlookup_dinsert_self _ _ _
  refine ⟨hcall1, hhit, ?_, ?_, ?_⟩
  · rw [hcall1s]
    simp only [get_default_variety_cached, dlookup_dinsert_self]
  · rw [hcall1s]
    simp only [get_default_variety_cached, dlookup_dinsert_self]
  · simp only [bulk_prime_default_varieties, List.foldl_cons, List.foldl_nil]
    simp only [bulkStep, hmiss]
    simp [get_species_cached_no_autosave_persists]

/-- C10 witness: uncached key `"a"` whose species fetch yields nothing ends
up cached as the identity value, with one persist from the batch path. -/
theorem failed_default_resolution_cached_witness :
    (get_default_variety_cached [] [] "a" (fun _ => Json.obj [])).value
        = .str "a"
    ∧ dlookup "a"
        (get_default_variety_cached [] [] "a" (fun _ => Json.obj [])).sdefault
        = some (.str "a")
    ∧ (get_default_variety_cached
          (get_default_variety_cached [] [] "a" (fun _ => Json.obj [])).sdefault
          (get_default_variety_cached [] [] "a" (fun _ => Json.obj [])).species
          "a" (fun _ => Json.obj [])).value = .str "a"
    ∧ (get_default_variety_cached
          (get_default_variety_cached [] [] "a" (fun _ => Json.obj [])).sdefault
          (get_default_variety_cached [] [] "a" (fun _ => Json.obj [])).species
          "a" (fun _ => Json.obj [])).speciesFetchCalls = 0
    ∧ (bulk_prime_default_varieties [] [] (fun _ => Json.obj []) ["a"]).persists
        = 1 :=
  failed_default_resolution_cached [] [] "a" (fun _ => Json.obj []) rfl
    (Or.inl ⟨rfl, rfl⟩)

theorem head_insertDesc (x : String) (l : List String) :
    (insertDesc x l).head? = some (match l.head? with
      | none => x
      | some y => if y ≤ x then x else y) := by
  cases l with
  | nil => rfl
  | cons y ys =>
    simp only [insertDesc, List.head?_cons]
    by_cases h : y ≤ x <;> simp [h]

theorem sortedDesc_cons (a : String) (l : List String) :
    sortedDesc (a :: l) = insertDesc a (sortedDesc l) := rfl

theorem sortedDesc_head_ub :
    ∀ (l : List String) (x : String), x ∈ l →
      ∃ y, (sortedDesc l).head? = some y ∧ x ≤ y := by
  intro l
  induction l with
  | nil => intro x hx; exact absurd hx (List.not_mem_nil x)
  | cons a rest ih =>
    intro x hx
    rw [sortedDesc_cons, head_insertDesc a (sortedDesc rest)]
    rcases List.mem_cons.mp hx with h | hxr
    · subst h
      cases ht : (sortedDesc rest).head? with
      | none => exact ⟨x, rfl, le_refl x⟩
      | some z =>
        by_cases hz : z ≤ x
        · exact ⟨x, by simp [hz], le_refl x⟩
        · exact ⟨z, by simp [hz], le_of_not_le hz⟩
    · obtain ⟨y, hy, hxy⟩ := ih x hxr
      rw [hy]
      by_cases hz : y ≤ a
      · exact ⟨a, by simp [hz], le_trans hxy hz⟩
      · exact ⟨y, by simp [hz], hxy⟩

theorem sortedDesc_head_le (s : String) :
    ∀ (l : List String), (∀ x ∈ l, x ≤ s) →
      ∀ y, (sortedDesc l).head? = some y → y ≤ s := by
  intro l
  induction l with
  | nil => intro _ y hy; simp [sortedDesc] at hy
  | cons a rest ih =>
    intro hb y hy
    rw [sortedDesc_cons, head_insertDesc a (sortedDesc rest)] at hy
    cases ht : (sortedDesc rest).head? with
    | none =>
      rw [ht] at hy
      simp only [Option.some.injEq] at hy
      subst hy
      exact hb a (List.mem_cons_self a rest)
    | some z =>
      rw [ht] at hy
      by_cases hz : z ≤ a
      · simp only [hz, if_true, Option.some.injEq] at hy
        subst hy
        exact hb a (List.mem_cons_self a rest)
      · simp only [hz, if_false, Option.some.injEq] at hy
        subst hy
        exact ih (fun x hx => hb x (List.mem_cons_of_mem a hx)) _ ht

theorem sortedDesc_head_max {l : List String} {s : String}
    (hmem : s ∈ l) (hub : ∀ x ∈ l, x ≤ s) :
    (sortedDesc l).head? = some s := by
  obtain ⟨y, hy, hsy⟩ := sortedDesc_head_ub l s hmem
  have hys : y ≤ s := sortedDesc_head_le s l hub y hy
  rw [hy, le_antisymm hys hsy]

/-- C7: with a nonempty snapshot set for the primary store, recover selects
the snapshot whose name is lexicographically greatest (the fixed-width
timestamp in the name makes that the newest), and when it parses the call
succeeds with the in-memory store equal to that snapshot's parsed content. -/
theorem recover_selects_newest (fs : PFS) (mem : Dict) (s : String) (d : Dict)
    (hmem : s ∈ fs.backups.map Prod.fst)
    (hmax : ∀ x ∈ fs.backups.map Prod.fst, x ≤ s)
    (hcontent : dlookup s fs.backups = some (some d)) :
    recover_cache fs mem = (true, { fs with live := some (some d) }, d) := by
  simp [recover_cache, sortedDesc_head_max hmem hmax, hcontent]

/-- C7 witness: three snapshots with timestamps T1 < T2 < T3 in their names;
recover restores T3's content. -/
theorem recover_selects_newest_witness :
    recover_cache
        ⟨some (some []),
         [("pokemon_cache_backup_20240101_000000.json", some [("a", Json.num 1)]),
          ("pokemon_cache_backup_20240102_000000.json", some [("a", Json.num 2)]),
          ("pokemon_cache_backup_20240103_000000.json", some [("a", Json.num 3)])]⟩
        []
      = (true,
         ⟨some (some [("a", Json.num 3)]),
          [("pokemon_cache_backup_20240101_000000.json", some [("a", Json.num 1)]),
           ("pokemon_cache_backup_20240102_000000.json", some [("a", Json.num 2)]),
           ("pokemon_cache_backup_20240103_000000.json", some [("a", Json.num 3)])]⟩,
         [("a", Json.num 3)]) :=
  recover_selects_newest _ _ "pokemon_cache_backup_20240103_000000.json"
    [("a", Json.num 3)] (by decide)
    (by
      intro x hx
      simp only [List.map_cons, List.map_nil, List.mem_cons,
        List.not_mem_nil, or_false] at hx
      rcases hx with rfl | rfl | rfl <;>
        rw [String.le_iff_toList_le] <;> decide)
    rfl

/-- C1 counterexample: with a single unparseable snapshot, `recover_cache`
returns failure but the live store file has been overwritten with the
snapshot's content — refuting "returns failure without mutating any state
(neither memory nor the live store file)". -/
theorem recover_failure_mutates_disk :
    (recover_cache
        ⟨some (some [("pikachu", Json.num 1)]),
         [("pokemon_cache_backup_20240101_000000.json", none)]⟩
        [("pikachu", Json.num 1)]).1 = false
    ∧ (recover_cache
        ⟨some (some [("pikachu", Json.num 1)]),
         [("pokemon_cache_backup_20240101_000000.json", none)]⟩
        [("pikachu", Json.num 1)]).2.1.live
      ≠ (PFS.mk (some (some [("pikachu", Json.num 1)]))
          [("pokemon_cache_backup_20240101_000000.json", none)]).live := by
  constructor
  · rfl
  · show (some none : Option PContent) ≠ some (some [("pikachu", Json.num 1)])
    simp

/-- C1 amended: recover returns failure with the in-memory store unchanged
when no snapshot exists (then nothing at all changes) or when the selected
snapshot fails to parse (then the live store file has already been
overwritten with the snapshot's unparseable content by the verbatim copy);
otherwise it returns success.  Both stores' recover operations behave this
way. -/
theorem recover_failure_success_amended :
    (∀ (fs : PFS) (mem : Dict), fs.backups = [] →
        recover_cache fs mem = (false, fs, mem))
    ∧ (∀ (fs : PFS) (mem : Dict) (s : String),
        s ∈ fs.backups.map Prod.fst →
        (∀ x ∈ fs.backups.map Prod.fst, x ≤ s) →
        dlookup s fs.backups = some none →
        recover_cache fs mem = (false, { fs with live := some none }, mem))
    ∧ (∀ (fs : PFS) (mem : Dict) (s : String) (d : Dict),
        s ∈ fs.backups.map Prod.fst →
        (∀ x ∈ fs.backups.map Prod.fst, x ≤ s) →
        dlookup s fs.backups = some (some d) →
        (recover_cache fs mem).1 = true)
    ∧ (∀ (fs : EFS) (mem : EStore), fs.backups = [] →
        recover_extra_cache fs mem = (false, fs, mem))
    ∧ (∀ (fs : EFS) (mem : EStore) (s : String),
        s ∈ fs.backups.map Prod.fst →
        (∀ x ∈ fs.backups.map Prod.fst, x ≤ s) →
        dlookup s fs.backups = some none →
        recover_extra_cache fs mem = (false, { fs with live := some none }, mem))
    ∧ (∀ (fs : EFS) (mem : EStore) (s : String) (d : EStore),
        s ∈ fs.backups.map Prod.fst →
        (∀ x ∈ fs.backups.map Prod.fst, x ≤ s) →
        dlookup s fs.backups = some (some d) →
        (recover_extra_cache fs mem).1 = true) := by
  refine ⟨?_, ?_, ?_, ?_, ?_, ?_⟩
  · intro fs mem h
    simp [recover_cache, h, sortedDesc]
  · intro fs mem s hmem hmax hbad
    simp [recover_cache, sortedDesc_head_max hmem hmax, hbad]
  · intro fs mem s d hmem hmax hgood
    simp [recover_cache, sortedDesc_head_max hmem hmax, hgood]
  · intro fs mem h
    simp [recover_extra_cache, h, sortedDesc]
  · intro fs mem s hmem hmax hbad
    simp [recover_extra_cache, sortedDesc_head_max hmem hmax, hbad]
  · intro fs mem s d hmem hmax hgood
    simp [recover_extra_cache, sortedDesc_head_max hmem hmax, hgood]

/-- C1 amended witness: the empty-snapshot case touches nothing, and an
unparseable newest snapshot fails with memory unchanged. -/
theorem recover_failure_success_amended_witness :
    recover_cache ⟨some (some []), []⟩ [("pikachu", Json.num 1)]
      = (false, ⟨some (some []), []⟩, [("pikachu", Json.num 1)])
    ∧ recover_cache
        ⟨some (some []), [("pokemon_cache_backup_20240101_000000.json", none)]⟩
        [("pikachu", Json.num 1)]
      = (false,
         ⟨some none, [("pokemon_cache_backup_20240101_000000.json", none)]⟩,
         [("pikachu", Json.num 1)]) :=
  ⟨recover_failure_success_amended.1 _ _ rfl,
   recover_failure_success_amended.2.1 _ _
     "pokemon_cache_backup_20240101_000000.json" (by decide)
     (by
       intro x hx
       simp only [List.map_cons, List.map_nil, List.mem_cons,
         List.not_mem_nil, or_false] at hx
       rcases hx with rfl
       exact le_refl _)
     rfl⟩

/-- C6: when the disk write fails, the atomic writer propagates the I/O
error to its caller — the persist wrapper `save_cache`, which logs it — the
live file keeps its previous content, and the in-memory mutation is not
rolled back: the store still holds the newly stored value. -/
theorem write_failure_no_rollback (cache : Dict) (live : Option PContent)
    (key : String) (v : Json) (msg : String) :
    atomic_write (dinsert key v cache) (some msg) = .error msg
    ∧ (store_then_save cache live key v (some msg)).1 = dinsert key v cache
    ∧ dlookup key (store_then_save cache live key v (some msg)).1 = some v
    ∧ (store_then_save cache live key v (some msg)).2.1 = live
    ∧ (store_then_save cache live key v (some msg)).2.2
        = ["ERROR saving cache: " ++ msg] :=
  ⟨rfl, rfl, dlookup_dinsert_self _ _ _, rfl, rfl⟩

/-- C8 counterexample: after `refresh_extra_cache` the secondary store's
backing file exists again, holding the empty shape — it is not left removed,
because the refresh immediately re-persists the emptied store. -/
theorem refreshAll_file_recreated :
    (refresh_extra_cache
        ⟨some (some [("species", [("pikachu", Json.num 1)])]), []⟩).1.live
      = some (some emptyExtra)
    ∧ (refresh_extra_cache
        ⟨some (some [("species", [("pikachu", Json.num 1)])]), []⟩).1.live
      ≠ none :=
  ⟨rfl, by
    show (some (some emptyExtra) : Option EContent) ≠ none
    simp⟩

/-- C8 amended: `refresh` empties the store in memory for both stores and
never touches the snapshots; the primary store's backing file is removed
from disk, while the secondary store's backing file is removed but
immediately recreated holding the empty required shape (its on-disk state is
empty, yet the file exists). -/
theorem refreshAll_amended (pfs : PFS) (efs : EFS) :
    (refresh_cache pfs).2 = []
    ∧ (refresh_cache pfs).1.live = none
    ∧ (refresh_cache pfs).1.backups = pfs.backups
    ∧ (refresh_extra_cache efs).2 = emptyExtra
    ∧ (refresh_extra_cache efs).1.live = some (some emptyExtra)
    ∧ (refresh_extra_cache efs).1.backups = efs.backups :=
  ⟨rfl, rfl, rfl, rfl, rfl, rfl⟩

theorem dlookup_append {α : Type} (k : String) (d1 d2 : List (String × α)) :
    dlookup k (d1 ++ d2)
      = match dlookup k d1 with
        | some v => some v
        | none => dlookup k d2 := by
  induction d1 with
  | nil => simp [dlookup]
  | cons hd tl ih =>
    obtain ⟨k', v'⟩ := hd
    by_cases h : k' = k <;> simp [dlookup, h, ih]

theorem dlookup_dsetdefault_self_isSome {α : Type} (k : String) (v : α)
    (d : List (String × α)) :
    (dlookup k (dsetdefault k v d)).isSome = true := by
  unfold dsetdefault
  by_cases h : (dlookup k d).isSome = true
  · simp [h]
  · rw [if_neg h, dlookup_append, Option.not_isSome_iff_eq_none.mp h]
    simp [dlookup]

theorem dlookup_dsetdefault_isSome_of {α : Type} (k k' : String) (v : α)
    (d : List (String × α)) (h : (dlookup k' d).isSome = true) :
    (dlookup k' (dsetdefault k v d)).isSome = true := by
  unfold dsetdefault
  by_cases hp : (dlookup k d).isSome = true
  · simp [hp, h]
  · rw [if_neg hp, dlookup_append]
    cases hk : dlookup k' d with
    | none => rw [hk] at h; simp at h
    | some w => simp

theorem foldl_dsetdefault_pres (keys : List String) :
    ∀ (e : EStore) (k : String), (dlookup k e).isSome = true →
      (dlookup k (keys.foldl (fun acc k' => dsetdefault k' ([] : Sect) acc) e)).isSome
        = true := by
  induction keys with
  | nil => intro e k h; simpa using h
  | cons a rest ih =>
    intro e k h
    exact ih _ k (dlookup_dsetdefault_isSome_of a k [] e h)

theorem foldl_dsetdefault_mem (keys : List String) :
    ∀ (e : EStore) (k : String), k ∈ keys →
      (dlookup k (keys.foldl (fun acc k' => dsetdefault k' ([] : Sect) acc) e)).isSome
        = true := by
  induction keys with
  | nil => intro e k h; cases h
  | cons a rest ih =>
    intro e k h
    rcases List.mem_cons.mp h with h | hr
    · subst h
      exact foldl_dsetdefault_pres rest _ k (dlookup_dsetdefault_self_isSome k [] e)
    · exact ih _ k hr

theorem requiredPresent_normalize (e : EStore) :
    requiredPresent (normalizeSections e) = true := by
  simp only [requiredPresent, List.all_eq_true]
  intro k hk
  rcases List.mem_append.mp hk with hreq | hl
  · exact dlookup_dsetdefault_isSome_of LISTS_KEY k [] _
      (foldl_dsetdefault_mem REQUIRED_EXTRA_KEYS e k hreq)
  · have hkl : k = LISTS_KEY := by simpa using hl
    subst hkl
    exact dlookup_dsetdefault_self_isSome _ _ _

theorem requiredPresent_dinsert (e : EStore) (k : String) (v : Sect)
    (h : requiredPresent e = true) : requiredPresent (dinsert k v e) = true := by
  simp only [requiredPresent, List.all_eq_true] at h ⊢
  intro x hx
  exact dlookup_dinsert_isSome _ _ (h x hx)

/-- C9: the secondary store's required sections and its lists bucket are all
present after load, and their presence is preserved by every modelled public
operation: the store-level section-entry write that every getOrFetch
mutation performs, the species getter, the default-variety resolver and its
batch version, `refresh_lists`, `refresh_extra_cache`, and
`recover_extra_cache` in each of its outcomes. -/
theorem required_sections_present
    (fc : Option EContent) (fs : EFS) (mem e : EStore)
    (sect key nm : String) (v : Json) (fetchFn : String → Json)
    (auto : Bool) (names : List String) (keys : Option (List String))
    (hmem : requiredPresent mem = true) (he : requiredPresent e = true) :
    requiredPresent (load_extra_cache fc) = true
    ∧ requiredPresent (refresh_extra_cache fs).2 = true
    ∧ requiredPresent (recover_extra_cache fs mem).2.2 = true
    ∧ requiredPresent (set_section_entry e sect key v) = true
    ∧ requiredPresent (get_species_cached_store e nm fetchFn auto).2 = true
    ∧ requiredPresent (get_default_variety_cached_store e nm fetchFn).2 = true
    ∧ requiredPresent (bulk_prime_default_varieties_store e fetchFn names).2
        = true
    ∧ requiredPresent (refresh_lists e keys) = true := by
  refine ⟨?_, ?_, ?_, ?_, ?_, ?_, ?_, ?_⟩
  · cases fc with
    | none => exact requiredPresent_normalize []
    | some c =>
      cases c with
      | none => exact requiredPresent_normalize []
      | some d => exact requiredPresent_normalize d
  · show requiredPresent emptyExtra = true
    decide
  · cases hh : (sortedDesc (fs.backups.map Prod.fst)).head? with
    | none => simpa [recover_extra_cache, hh] using hmem
    | some src =>
      cases hc : (dlookup src fs.backups).getD none with
      | none => simpa [recover_extra_cache, hh, hc] using hmem
      | some recovered =>
        simpa [recover_extra_cache, hh, hc]
          using requiredPresent_normalize recovered
  · exact requiredPresent_dinsert e sect _ he
  · exact requiredPresent_dinsert e "species" _ he
  · exact requiredPresent_dinsert _ "species_default" _
      (requiredPresent_dinsert e "species" _ he)
  · exact requiredPresent_dinsert _ "species_default" _
      (requiredPresent_dinsert e "species" _ he)
  · cases keys with
    | some ks => exact requiredPresent_dinsert e LISTS_KEY _ he
    | none => exact requiredPresent_dinsert e LISTS_KEY _ he

/-- C9 witness: the invariant holds at concrete stores for each operation. -/
theorem required_sections_present_witness :
    requiredPresent (load_extra_cache none) = true
    ∧ requiredPresent (refresh_extra_cache ⟨none, []⟩).2 = true
    ∧ requiredPresent (recover_extra_cache ⟨none, []⟩ emptyExtra).2.2 = true
    ∧ requiredPresent
        (set_section_entry emptyExtra "species" "pikachu" (Json.num 1)) = true
    ∧ requiredPresent
        (get_species_cached_store emptyExtra "pikachu"
          (fun _ => Json.num 1) true).2 = true
    ∧ requiredPresent
        (get_default_variety_cached_store emptyExtra "pikachu"
          (fun _ => Json.num 1)).2 = true
    ∧ requiredPresent
        (bulk_prime_default_varieties_store emptyExtra
          (fun _ => Json.num 1) ["pikachu"]).2 = true
    ∧ requiredPresent (refresh_lists emptyExtra (some ["all_pokemon"])) = true :=
  required_sections_present none ⟨none, []⟩ emptyExtra emptyExtra
    "species" "pikachu" "pikachu" (Json.num 1) (fun _ => Json.num 1) true
    ["pikachu"] (some ["all_pokemon"]) (by decide) (by decide)

end PokeCache
